import Mathlib

/-!
Verification of the OSHPOC2 voice-bridge core against its specification.

The Python sources under `backend/` are shallowly embedded here:
* `audio_utils.py` (`ulaw2lin`, `lin2ulaw`) — the companding codec;
* `resample.py` (`resample_8khz_to_16khz`, `resample_16khz_to_8khz`);
* `voice/realtime_handler.py` (`OpenAIRealtimeHandler._handle_function_call`);
* `voice/call_manager.py` (`CallManager._handle_eligibility_check`,
  `CallManager._summarize_eligibility_result`);
* `voice/twilio_handler.py` (`TwilioStreamHandler.handle_message`);
* `app_voice_working.py` (the `voice_stream` telephony event loop).

Python `bytes` values are modelled as `List (Fin 256)`; 16-bit samples as
`Int`; JSON values as the inductive `Json` below (numbers restricted to
integers, which covers every value the modelled code paths manipulate).
-/

set_option maxRecDepth 8000

namespace OSHPOC

/-- A Python byte: an integer in 0..255. -/
abbrev Byte := Fin 256

/-- `struct.unpack("<h", data[i:i+2])[0]`: read two bytes little-endian as a
signed 16-bit sample. -/
def unpack16le (lo hi : Byte) : Int :=
  let u := lo.val + 256 * hi.val
  if u ≥ 32768 then (u : Int) - 65536 else (u : Int)

/-- `struct.pack("<h", s)`: write a signed 16-bit sample as two bytes
little-endian.  The sample is reduced mod 2^16 explicitly; every call site in
the embedded code passes a value in -32768..32767, where this agrees with the
Python behaviour (Python raises on out-of-range input instead). -/
def pack16le (s : Int) : List Byte :=
  let u := (s % 65536).toNat
  [⟨u % 256, Nat.mod_lt _ (by norm_num)⟩, ⟨u / 256 % 256, Nat.mod_lt _ (by norm_num)⟩]

/-- The shared sample-extraction loop `for i in range(0, len(data), 2)` with
the guard that skips a trailing unpaired byte (`if i + 1 < len(data)` in
`resample.py`, `if i + 1 >= len(data): break` in `audio_utils.lin2ulaw`). -/
def samplesOf : List Byte → List Int
  | lo :: hi :: rest => unpack16le lo hi :: samplesOf rest
  | _ => []

/-- `b"".join(struct.pack("<h", s) for s in samples)`. -/
def packSamples : List Int → List Byte
  | [] => []
  | s :: rest => pack16le s ++ packSamples rest

/-! ## The companding codec (`backend/audio_utils.py`) -/

/-- The `ulaw_table` literal of `audio_utils.ulaw2lin`, verbatim. -/
def ulawTableList : List Int :=
  [ -32124, -31100, -30076, -29052, -28028, -27004, -25980, -24956,
    -23932, -22908, -21884, -20860, -19836, -18812, -17788, -16764,
    -15996, -15484, -14972, -14460, -13948, -13436, -12924, -12412,
    -11900, -11388, -10876, -10364, -9852, -9340, -8828, -8316,
    -7932, -7676, -7420, -7164, -6908, -6652, -6396, -6140,
    -5884, -5628, -5372, -5116, -4860, -4604, -4348, -4092,
    -3900, -3772, -3644, -3516, -3388, -3260, -3132, -3004,
    -2876, -2748, -2620, -2492, -2364, -2236, -2108, -1980,
    -1884, -1820, -1756, -1692, -1628, -1564, -1500, -1436,
    -1372, -1308, -1244, -1180, -1116, -1052, -988, -924,
    -876, -844, -812, -780, -748, -716, -684, -652,
    -620, -588, -556, -524, -492, -460, -428, -396,
    -372, -356, -340, -324, -308, -292, -276, -260,
    -244, -228, -212, -196, -180, -164, -148, -132,
    -120, -112, -104, -96, -88, -80, -72, -64,
    -56, -48, -40, -32, -24, -16, -8, 0,
    32124, 31100, 30076, 29052, 28028, 27004, 25980, 24956,
    23932, 22908, 21884, 20860, 19836, 18812, 17788, 16764,
    15996, 15484, 14972, 14460, 13948, 13436, 12924, 12412,
    11900, 11388, 10876, 10364, 9852, 9340, 8828, 8316,
    7932, 7676, 7420, 7164, 6908, 6652, 6396, 6140,
    5884, 5628, 5372, 5116, 4860, 4604, 4348, 4092,
    3900, 3772, 3644, 3516, 3388, 3260, 3132, 3004,
    2876, 2748, 2620, 2492, 2364, 2236, 2108, 1980,
    1884, 1820, 1756, 1692, 1628, 1564, 1500, 1436,
    1372, 1308, 1244, 1180, 1116, 1052, 988, 924,
    876, 844, 812, 780, 748, 716, 684, 652,
    620, 588, 556, 524, 492, 460, 428, 396,
    372, 356, 340, 324, 308, 292, 276, 260,
    244, 228, 212, 196, 180, 164, 148, 132,
    120, 112, 104, 96, 88, 80, 72, 64,
    56, 48, 40, 32, 24, 16, 8, 0 ]

theorem ulawTableList_length : ulawTableList.length = 256 := by decide

/-- `ulaw_table[byte]`: the table lookup.  The index is a byte, so it is
always within the 256-entry table. -/
def ulawTable (b : Byte) : Int :=
  ulawTableList.get (Fin.cast ulawTableList_length.symm b)

/-- The per-byte loop body of `ulaw2lin`: look up the sample and pack it as a
16-bit little-endian value, concatenating the results. -/
def ulaw2linCore : List Byte → List Byte
  | [] => []
  | b :: rest => pack16le (ulawTable b) ++ ulaw2linCore rest

/-- `audio_utils.ulaw2lin(data, width)`.  The function raises `ValueError`
unless `width == 2` (modelled as `none`); otherwise it maps every input byte
through the table and packs each sample as two output bytes. -/
def ulaw2lin (data : List Byte) (width : Nat) : Option (List Byte) :=
  if width = 2 then some (ulaw2linCore data) else none

/-- The exponent search of `lin2ulaw`: `exp = 7; while exp > 0: if sample >
(33 << (exp + 2)): break; exp -= 1`. -/
def findExpGo (sample : Nat) : Nat → Nat
  | 0 => 0
  | e + 1 => if sample > 33 <<< (e + 1 + 2) then e + 1 else findExpGo sample e

def findExp (sample : Nat) : Nat := findExpGo sample 7

theorem findExpGo_le (sample n : Nat) : findExpGo sample n ≤ n := by
  induction n with
  | zero => simp [findExpGo]
  | succ e ih =>
    simp only [findExpGo]
    split
    · exact Nat.le_refl _
    · exact Nat.le_trans ih (Nat.le_succ e)

theorem findExp_le (sample : Nat) : findExp sample ≤ 7 := findExpGo_le sample 7

/-- The per-sample body of `lin2ulaw`: extract the sign, take the magnitude,
clamp to 32635, find exponent and mantissa, assemble the byte and complement
it.  Python `~x & 0xFF` on the assembled 8-bit value equals `x ^^^ 0xFF`. -/
def lin2ulawByte (s : Int) : Nat :=
  let sign : Nat := if s ≥ 0 then 0 else 0x80
  let mag0 : Nat := s.natAbs
  let mag : Nat := if mag0 > 32635 then 32635 else mag0
  let exp : Nat := findExp mag
  let mantissa : Nat := (mag >>> (exp + 3)) &&& 0x0F
  (sign ||| (exp <<< 4) ||| mantissa) ^^^ 0xFF

theorem lin2ulawByte_lt (s : Int) : lin2ulawByte s < 256 := by
  have h256 : (256 : Nat) = 2 ^ 8 := by norm_num
  unfold lin2ulawByte
  set sign : Nat := if s ≥ 0 then 0 else 0x80 with hsign
  set mag : Nat := if s.natAbs > 32635 then 32635 else s.natAbs with hmag
  have hs : sign < 2 ^ 8 := by
    rw [hsign]; split <;> norm_num
  have hexp : findExp mag <<< 4 < 2 ^ 8 := by
    have := findExp_le mag
    rw [Nat.shiftLeft_eq]
    norm_num
    omega
  have hman : (mag >>> (findExp mag + 3)) &&& 0x0F < 2 ^ 8 := by
    have h1 : (mag >>> (findExp mag + 3)) &&& 0x0F ≤ 0x0F := Nat.and_le_right
    omega
  rw [h256]
  exact Nat.xor_lt_two_pow (Nat.or_lt_two_pow (Nat.or_lt_two_pow hs hexp) hman) (by norm_num)

/-- The companded byte produced for one sample, as a `Byte`. -/
def ulawEncByte (s : Int) : Byte := ⟨lin2ulawByte s, lin2ulawByte_lt s⟩

/-- The loop of `lin2ulaw`: unpack consecutive 16-bit samples (a trailing
unpaired byte is skipped by the `i + 1 >= len(data)` guard, exactly the shared
`samplesOf` loop) and encode each into one companded byte. -/
def lin2ulawCore (data : List Byte) : List Byte :=
  (samplesOf data).map ulawEncByte

/-- `audio_utils.lin2ulaw(data, width)`; raises (`none`) unless `width == 2`. -/
def lin2ulaw (data : List Byte) (width : Nat) : Option (List Byte) :=
  if width = 2 then some (lin2ulawCore data) else none

/-- Modelled from the spec: the published G.711 mu-law decode rule, which
generates the 256-entry reference decode table the spec appeals to (the
repository contains no second copy of the table).  For a transmitted byte
`b`, complement it, split into sign bit, 3-bit segment and 4-bit quantization
fields, rebuild the biased magnitude `(quant * 8 + 132) * 2 ^ segment` and
subtract the bias 132, negating when the sign bit of the complemented byte is
set. -/
def muLawRef (b : Byte) : Int :=
  let u : Nat := 255 - b.val
  let seg : Nat := (u >>> 4) &&& 7
  let quant : Nat := u &&& 15
  let t : Nat := ((quant <<< 3) + 132) <<< seg
  if u ≥ 128 then 132 - (t : Int) else (t : Int) - 132

/-! ## The resampler (`backend/resample.py`) -/

/-- The upsampling loop of `resample_8khz_to_16khz`: append each sample twice. -/
def dupEach : List Int → List Int
  | [] => []
  | s :: rest => s :: s :: dupEach rest

/-- Python `samples[::2]`: keep every other sample, starting with the first. -/
def everyOther : List Int → List Int
  | [] => []
  | [s] => [s]
  | s :: _ :: rest => s :: everyOther rest

/-- `resample.resample_8khz_to_16khz(pcm_8khz)`: unpack 16-bit samples (a
trailing unpaired byte is skipped), duplicate each sample, and pack back. -/
def resample_8khz_to_16khz (pcm_8khz : List Byte) : List Byte :=
  packSamples (dupEach (samplesOf pcm_8khz))

/-- `resample.resample_16khz_to_8khz(pcm_16khz)`: unpack 16-bit samples (a
trailing unpaired byte is skipped), keep every other sample, and pack back. -/
def resample_16khz_to_8khz (pcm_16khz : List Byte) : List Byte :=
  packSamples (everyOther (samplesOf pcm_16khz))

/-! ## JSON values

JSON values exchanged with the speech model and the decision engine.  Numbers
are modelled as integers: every numeric field the modelled code paths touch is
compared with 0 or printed with the whole-dollar format specifier, and the
theorems below never depend on fractional values. -/

inductive Json where
  | null
  | bool (b : Bool)
  | num (n : Int)
  | str (s : String)
  | arr (elems : List Json)
  | obj (fields : List (String × Json))

/-- First-match lookup in a JSON object, standing in for Python dict access
(dict keys are unique, so first-match agrees with dict semantics). -/
def lookupField : List (String × Json) → String → Option Json
  | [], _ => none
  | (k, v) :: rest, key => if k = key then some v else lookupField rest key

/-- `d.get(key)` on a JSON object; `none` when the key is absent.  All values
it is applied to in the embedding are objects (the decision engine returns
dicts per its signature). -/
def Json.get? : Json → String → Option Json
  | .obj fields, key => lookupField fields key
  | _, _ => none

/-- `d.get(key, default)`. -/
def Json.getD (j : Json) (key : String) (d : Json) : Json :=
  (j.get? key).getD d

/-- Python truthiness of a JSON value. -/
def Json.truthy : Json → Bool
  | .null => false
  | .bool b => b
  | .num n => n != 0
  | .str s => s != ""
  | .arr es => !es.isEmpty
  | .obj fs => !fs.isEmpty

/-- Truthiness of an optional value (`d.get(key)` used in a condition): a
missing key is `None`, which is falsy. -/
def optTruthy : Option Json → Bool
  | some v => v.truthy
  | none => false

/-! ## The function-call path of the speech-model adapter
(`backend/voice/realtime_handler.py`, `OpenAIRealtimeHandler._handle_function_call`) -/

/-- A `response.function_call_arguments.done` event as the handler reads it:
the correlating call id, the function name, and the argument payload.
`arguments` holds the result of `json.loads` on the event field; the
embedding covers events whose argument string parses. -/
structure FunctionCallEvent where
  callId : String
  name : String
  arguments : Json

/-- One observable action of `_handle_function_call`, in program order:
invoking the registered decision-engine callback, or writing one message to
the model socket.  `sendItemCreate t c o` is the `conversation.item.create`
message whose item has type `t`, call id `c` and output `o` (the code sends
`json.dumps o`; the serialization step is kept abstract and the message
carries the value itself).  `sendResponseCreate` is the `response.create`
trigger. -/
inductive HandlerAction where
  | invokeCallback (args : Json)
  | sendItemCreate (itemType : String) (callId : String) (output : Json)
  | sendResponseCreate

/-- `OpenAIRealtimeHandler._handle_function_call(data)`: if the function name
is the registered `check_eligibility` and a callback is configured, invoke the
callback on the parsed arguments, send the correlated function-call-output
item, then send the response trigger; otherwise do nothing.  The result is the
ordered trace of observable actions. -/
def handle_function_call (onFunctionCall : Option (Json → Json))
    (ev : FunctionCallEvent) : List HandlerAction :=
  if ev.name = "check_eligibility" then
    match onFunctionCall with
    | some f =>
        [ .invokeCallback ev.arguments,
          .sendItemCreate "function_call_output" ev.callId (f ev.arguments),
          .sendResponseCreate ]
    | none => []
  else []

/-! ## Function-call mediation of the session controller
(`backend/voice/call_manager.py`) -/

/-- `v.get(key, default)` where the receiver is not statically a dict: Python
raises `AttributeError` on a non-dict receiver, modelled as `Except.error`. -/
def jsonGetD (j : Json) (key : String) (d : Json) : Except String Json :=
  match j with
  | .obj fields => .ok ((lookupField fields key).getD d)
  | _ => .error "AttributeError: object has no attribute get"

/-- `v.get(key)` (default `None`) where the receiver may not be a dict. -/
def jsonGet? (j : Json) (key : String) : Except String (Option Json) :=
  match j with
  | .obj fields => .ok (lookupField fields key)
  | _ => .error "AttributeError: object has no attribute get"

/-- Python `v > 0` on a JSON value: defined for numbers (and for booleans,
which are integers in Python); raises `TypeError` otherwise. -/
def jsonGtZero : Json → Except String Bool
  | .num n => .ok (decide (n > 0))
  | .bool b => .ok b
  | _ => .error "TypeError: unorderable types"

/-- The dollar-amount f-string fragment with the whole-number float format
specifier, applied to a JSON value: defined for numbers (booleans format as
1 or 0); raises `TypeError` otherwise.  Numbers are integers in this model,
so the rounding performed by the specifier is exact. -/
def formatDollar : Json → Except String String
  | .num n => .ok ("$" ++ toString n)
  | .bool b => .ok ("$" ++ (if b then "1" else "0"))
  | _ => .error "TypeError: unsupported format string"

/-- `CallManager._summarize_eligibility_result(result)`.  `Except.error`
marks exactly the points where the Python raises: attribute access on a
non-dict, ordering or numeric formatting of a non-number; such an exception
is caught by the enclosing try of `_handle_eligibility_check`.  The
not-eligible branch returns whatever the message field holds, hence the
`Json` result type.  The unused `member_info` binding of the source is
elided. -/
def summarizeResult (result : Json) : Except String Json :=
  match result.getD "eligibility_status" (.str "unknown") with
  | .str "eligible" => do
      let financial := result.getD "financial_info" (.obj [])
      let base := "Good news! The patient is eligible for coverage. "
      let withDeductible ←
        if financial.truthy then do
          let deductible ← jsonGetD financial "deductible" (.obj [])
          let remaining ← jsonGetD deductible "remaining" (.num 0)
          let positive ← jsonGtZero remaining
          if positive then do
            let d ← formatDollar remaining
            pure (base ++ "They have " ++ d ++ " remaining on their deductible. ")
          else
            pure (base ++ "Their deductible has been met. ")
        else
          pure base
      match result.get? "service_specific" with
      | some sv =>
        if sv.truthy then do
          let auth ← jsonGet? sv "requires_prior_authorization"
          let withAuth :=
            if optTruthy auth then
              withDeductible ++ "Note: Prior authorization is required for this procedure. "
            else withDeductible
          let benefit ← jsonGetD sv "benefit_details" (.obj [])
          let copay ← jsonGet? benefit "copay_amount"
          match copay with
          | some cv =>
            if cv.truthy then do
              let c ← formatDollar cv
              pure (.str (withAuth ++ "The copay is " ++ c ++ ". "))
            else pure (.str withAuth)
          | none => pure (.str withAuth)
        else pure (.str withDeductible)
      | none => pure (.str withDeductible)
  | .str "not_eligible" =>
      .ok (result.getD "message" (.str "The patient is not currently eligible for coverage."))
  | _ => .ok (.str "I was able to check the eligibility, but received an unclear response.")

/-- The outcome of the decision-engine invocation
`self.eligibility_api.check_eligibility(args)` as observed by the caller: a
returned response value, or a raised exception carrying its message. -/
inductive EngineOutcome where
  | ok (result : Json)
  | exn (msg : String)

/-- `CallManager._handle_eligibility_check(args)` from the point the engine
call resolves: the structured payload returned to the model adapter as the
function-call result.  The append to the in-memory results log is a logging
side effect and is not modelled.  The enclosing try/except converts any
exception raised by the engine call, the status access, or the summarization
into a failure payload, so the function is total. -/
def handle_eligibility_check (engine : EngineOutcome) : Json :=
  match engine with
  | .exn e => .obj [("success", .bool false), ("error", .str e)]
  | .ok result =>
    match jsonGet? result "status" with
    | .error e => .obj [("success", .bool false), ("error", .str e)]
    | .ok st =>
      match st with
      | some (.str "success") =>
          match summarizeResult result with
          | .ok summary =>
              .obj [("success", .bool true), ("summary", summary),
                    ("full_result", result)]
          | .error e => .obj [("success", .bool false), ("error", .str e)]
      | _ =>
          .obj [("success", .bool false),
                ("error", result.getD "message" (.str "Unable to check eligibility"))]

/-- A failed decision-engine invocation in the sense of the error-handling
design: the engine raised an exception, or it returned a response whose
status field is not the string success. -/
def engineFailed : EngineOutcome → Prop
  | .exn _ => True
  | .ok result => result.get? "status" ≠ some (.str "success")

/-! ## The telephony event loops
(`backend/app_voice_working.py` `voice_stream` and
`backend/voice/twilio_handler.py` `TwilioStreamHandler.handle_message`) -/

/-- A telephony protocol event as read by the loops.  The media payload is
the audio after base64 decoding (both loops base64-decode it before doing
anything else with it). -/
inductive TwilioEvent where
  | connected
  | start (callSid streamSid : String)
  | media (payload : List Byte)
  | stop

/-- The `voice_stream` socket loop of `app_voice_working.py`, returning the
ordered list of PCM16 audio frames forwarded to the model adapter
(`handler.send_to_openai`).  `handlerState` is the `handler` variable:
`none` until a start event arrives, then the recorded call and stream sids.
A media event is forwarded (after companding decode via
`audio_utils.ulaw2lin`) only when `handler` is set; the loop breaks on a
stop event; connected events fall through without effect. -/
def voiceStreamRun (handlerState : Option (String × String)) :
    List TwilioEvent → List (List Byte)
  | [] => []
  | .connected :: rest => voiceStreamRun handlerState rest
  | .start cs ss :: rest => voiceStreamRun (some (cs, ss)) rest
  | .media p :: rest =>
      match handlerState with
      | some _ => ulaw2linCore p :: voiceStreamRun handlerState rest
      | none => voiceStreamRun handlerState rest
  | .stop :: _ => []

/-- The per-connection state of `TwilioStreamHandler`: the stream and call
sids recorded by a start event, initially `None`. -/
structure TwilioHandlerState where
  streamSid : Option String
  callSid : Option String

/-- `TwilioStreamHandler.handle_message(message, openai_handler)` for one
event: the updated handler state, the PCM16 frames forwarded to the model
adapter via `openai_handler.send_audio` (the companding decode
`audioop.ulaw2lin(data, 2)` computes the same standard table mapping as
`audio_utils.ulaw2lin`), and whether `openai_handler.close` was requested.
Note that a media event is forwarded unconditionally: nothing in this
handler checks that a start event was seen first. -/
def handle_message (st : TwilioHandlerState) (ev : TwilioEvent) :
    TwilioHandlerState × List (List Byte) × Bool :=
  match ev with
  | .connected => (st, [], false)
  | .start cs ss => ({ streamSid := some ss, callSid := some cs }, [], false)
  | .media p => (st, [ulaw2linCore p], false)
  | .stop => (st, [], true)

/-! ## Helper lemmas -/

theorem pack_unpack (lo hi : Byte) : pack16le (unpack16le lo hi) = [lo, hi] := by
  have hlo := lo.isLt
  have hhi := hi.isLt
  unfold pack16le unpack16le
  by_cases h : lo.val + 256 * hi.val ≥ 32768 <;>
    simp only [h, if_true, if_false, ite_true, ite_false, List.cons.injEq, and_true] <;>
    refine ⟨Fin.ext ?_, Fin.ext ?_⟩ <;> simp <;> omega

theorem unpack16le_range (lo hi : Byte) :
    -32768 ≤ unpack16le lo hi ∧ unpack16le lo hi < 32768 := by
  have hlo := lo.isLt
  have hhi := hi.isLt
  simp only [unpack16le]
  split <;> constructor <;> omega

theorem samplesOf_pack_cons (s : Int) (rest : List Byte)
    (h1 : -32768 ≤ s) (h2 : s < 32768) :
    samplesOf (pack16le s ++ rest) = s :: samplesOf rest := by
  unfold pack16le
  simp only [List.cons_append, List.nil_append, samplesOf, List.cons.injEq, and_true]
  refine ⟨?_, rfl⟩
  simp only [unpack16le]
  split <;> simp <;> omega

theorem samplesOf_packSamples (ss : List Int)
    (h : ∀ s ∈ ss, -32768 ≤ s ∧ s < 32768) :
    samplesOf (packSamples ss) = ss := by
  induction ss with
  | nil => rfl
  | cons s rest ih =>
    have hs := h s (List.mem_cons_self _ _)
    rw [packSamples, samplesOf_pack_cons s _ hs.1 hs.2,
      ih (fun t ht => h t (List.mem_cons_of_mem _ ht))]

theorem samplesOf_range (data : List Byte) :
    ∀ s ∈ samplesOf data, -32768 ≤ s ∧ s < 32768 := by
  induction data using samplesOf.induct with
  | case1 lo hi rest ih =>
    intro s hs
    rw [samplesOf] at hs
    rcases List.mem_cons.mp hs with h | h
    · subst h; exact unpack16le_range lo hi
    · exact ih s h
  | case2 t hnot =>
    intro s hs
    rcases t with _ | ⟨a, _ | ⟨b, rest⟩⟩
    · simp [samplesOf] at hs
    · simp [samplesOf] at hs
    · exact (hnot a b rest rfl).elim

theorem everyOther_dupEach (ss : List Int) : everyOther (dupEach ss) = ss := by
  induction ss with
  | nil => rfl
  | cons s rest ih => rw [dupEach, everyOther, ih]

theorem dupEach_mem (ss : List Int) (s : Int) (h : s ∈ dupEach ss) : s ∈ ss := by
  induction ss with
  | nil => simp [dupEach] at h
  | cons t rest ih =>
    rw [dupEach] at h
    rcases List.mem_cons.mp h with h1 | h1
    · subst h1; exact List.mem_cons_self _ _
    · rcases List.mem_cons.mp h1 with h2 | h2
      · subst h2; exact List.mem_cons_self _ _
      · exact List.mem_cons_of_mem _ (ih h2)

theorem packSamples_samplesOf (data : List Byte) (h : data.length % 2 = 0) :
    packSamples (samplesOf data) = data := by
  induction data using samplesOf.induct with
  | case1 lo hi rest ih =>
    rw [samplesOf, packSamples, pack_unpack, ih (by simp at h; omega)]
    rfl
  | case2 t hnot =>
    rcases t with _ | ⟨a, _ | ⟨b, rest⟩⟩
    · rfl
    · simp at h
    · exact (hnot a b rest rfl).elim

theorem samplesOf_dupFrames (ss : List Int)
    (h : ∀ s ∈ ss, -32768 ≤ s ∧ s < 32768) :
    samplesOf (packSamples (dupEach ss)) = dupEach ss :=
  samplesOf_packSamples _ (fun s hs => h s (dupEach_mem ss s hs))

theorem samplesOf_append_single (data : List Byte) (b : Byte) (h : data.length % 2 = 0) :
    samplesOf (data ++ [b]) = samplesOf data := by
  induction data using samplesOf.induct with
  | case1 lo hi rest ih =>
    simp only [List.cons_append, samplesOf, List.cons.injEq, true_and]
    exact ih (by simp at h; omega)
  | case2 t hnot =>
    rcases t with _ | ⟨a, _ | ⟨c, rest⟩⟩
    · rfl
    · simp at h
    · exact (hnot a c rest rfl).elim

theorem samplesOf_dropLast (data : List Byte) (h : data.length % 2 = 1) :
    samplesOf data = samplesOf data.dropLast := by
  have hne : data ≠ [] := by
    intro he; rw [he] at h; simp at h
  conv_lhs => rw [← List.dropLast_append_getLast hne]
  rw [samplesOf_append_single _ _ (by rw [List.length_dropLast]; omega)]

theorem samplesOf_length (data : List Byte) :
    (samplesOf data).length = data.length / 2 := by
  induction data using samplesOf.induct with
  | case1 lo hi rest ih => simp [samplesOf, ih]; omega
  | case2 t hnot =>
    rcases t with _ | ⟨a, _ | ⟨c, rest⟩⟩
    · rfl
    · simp [samplesOf]
    · exact (hnot a c rest rfl).elim

theorem ulaw2linCore_length (data : List Byte) :
    (ulaw2linCore data).length = 2 * data.length := by
  induction data with
  | nil => rfl
  | cons b rest ih => simp [ulaw2linCore, pack16le, ih]; omega

theorem json_obj_ne_field (fs : List (String × Json)) (k : String) (v : Json)
    (hmem : (k, v) ∈ fs) : Json.obj fs ≠ v := by
  intro he
  have hsz : sizeOf (Json.obj fs) = sizeOf v := congrArg sizeOf he
  have h1 : sizeOf (k, v) < sizeOf fs := List.sizeOf_lt_of_mem hmem
  have h2 : sizeOf (k, v) = 1 + sizeOf k + sizeOf v := by simp
  have h3 : sizeOf (Json.obj fs) = 1 + sizeOf fs := by simp
  omega

/-! ## Claim theorems -/

set_option maxRecDepth 200000 in
/-- C1: For every byte value b in 0..255, decoding the single companded byte
b with the codec decode function (ulaw2lin at width 2) yields exactly the
signed 16-bit little-endian sample prescribed for b by the published G.711
mu-law 256-entry reference decode table, here given by the standard decode
rule `muLawRef`. -/
theorem C1_decode_matches_reference (b : Byte) :
    ulaw2lin [b] 2 = some (pack16le (muLawRef b)) := by
  revert b
  decide

/-- C10: The companded-to-PCM decoder is total at width 2: for every byte
string it returns a result (never raises), every input byte hits the
256-entry table, and the output carries exactly 2 bytes per input byte. -/
theorem C10_decode_total (data : List Byte) :
    ulawTableList.length = 256 ∧
    ∃ out, ulaw2lin data 2 = some out ∧ out.length = 2 * data.length :=
  ⟨ulawTableList_length, ulaw2linCore data, rfl, ulaw2linCore_length data⟩

/-- C5: For every even-length 16-bit PCM byte buffer x, downsampling the
result of upsampling x (ratio 2) returns the buffer x itself, so every
sample equals the corresponding original sample. -/
theorem C5_resample_roundtrip (x : List Byte) (h : x.length % 2 = 0) :
    resample_16khz_to_8khz (resample_8khz_to_16khz x) = x := by
  rw [resample_8khz_to_16khz, resample_16khz_to_8khz,
    samplesOf_dupFrames _ (samplesOf_range x), everyOther_dupEach,
    packSamples_samplesOf x h]

/-- Witness for C5 at the concrete 4-byte buffer 01 02 03 04. -/
theorem C5_witness :
    ([(1 : Byte), 2, 3, 4] : List Byte).length % 2 = 0 ∧
      resample_16khz_to_8khz (resample_8khz_to_16khz [(1 : Byte), 2, 3, 4]) =
        [(1 : Byte), 2, 3, 4] :=
  ⟨by decide, C5_resample_roundtrip [(1 : Byte), 2, 3, 4] (by decide)⟩

/-- C9: For every odd-length byte buffer, the PCM-to-companded encoder at
width 2 and the resamplers discard the trailing unpaired byte: the output
equals the output on the buffer with its last byte removed, is computed from
the floor(n/2) whole 16-bit samples, and no exception is raised (the encoder
returns a value at width 2). -/
theorem C9_trailing_byte_discarded (data : List Byte) (h : data.length % 2 = 1) :
    lin2ulaw data 2 = lin2ulaw data.dropLast 2 ∧
    (∃ out, lin2ulaw data 2 = some out ∧ out.length = data.length / 2) ∧
    resample_8khz_to_16khz data = resample_8khz_to_16khz data.dropLast ∧
    resample_16khz_to_8khz data = resample_16khz_to_8khz data.dropLast := by
  have hs := samplesOf_dropLast data h
  refine ⟨?_, ⟨lin2ulawCore data, rfl, ?_⟩, ?_, ?_⟩
  · simp [lin2ulaw, lin2ulawCore, hs]
  · simp [lin2ulawCore, samplesOf_length]
  · simp [resample_8khz_to_16khz, hs]
  · simp [resample_16khz_to_8khz, hs]

/-- Witness for C9 at the concrete odd-length buffer 01 02 03. -/
theorem C9_witness :
    ([(1 : Byte), 2, 3] : List Byte).length % 2 = 1 ∧
    (lin2ulaw [(1 : Byte), 2, 3] 2 = lin2ulaw ([(1 : Byte), 2, 3] : List Byte).dropLast 2 ∧
     (∃ out, lin2ulaw [(1 : Byte), 2, 3] 2 = some out ∧
       out.length = ([(1 : Byte), 2, 3] : List Byte).length / 2) ∧
     resample_8khz_to_16khz [(1 : Byte), 2, 3] =
       resample_8khz_to_16khz ([(1 : Byte), 2, 3] : List Byte).dropLast ∧
     resample_16khz_to_8khz [(1 : Byte), 2, 3] =
       resample_16khz_to_8khz ([(1 : Byte), 2, 3] : List Byte).dropLast) :=
  ⟨by decide, C9_trailing_byte_discarded [(1 : Byte), 2, 3] (by decide)⟩

/-- C3 fails on the code (code bug): the encoder of `audio_utils.lin2ulaw`
omits the standard bias of 132 and lets the 4-bit mantissa wrap, so the
decode-encode round trip is not within one companding quantization step.
At the representable sample 16500 (magnitude below the clipping maximum
32635) the round trip returns 8316, an error of 8184, which exceeds the
step 2 ^ (exponent + 3) = 512 of the segment the encoder itself selects for
16500, and even exceeds 2 ^ 10 = 1024, the largest companding step that
exists anywhere in the scale. -/
theorem C3_roundtrip_exceeds_step :
    samplesOf (ulaw2linCore (lin2ulawCore (pack16le 16500))) = [8316] ∧
    (16500 : Int) - 8316 > 2 ^ (findExp 16500 + 3) ∧
    (16500 : Int) - 8316 > 2 ^ 10 :=
  ⟨by decide, by decide, by decide⟩

/-- C2: For every function-call-arguments-done event named check_eligibility
with a registered callback, the handler invokes the callback exactly once
with the parsed argument payload, then sends exactly one
conversation.item.create message of type function_call_output carrying the
event call id and the result, followed by exactly one response.create
trigger, in exactly that order. -/
theorem C2_function_call_protocol (f : Json → Json) (ev : FunctionCallEvent)
    (h : ev.name = "check_eligibility") :
    handle_function_call (some f) ev =
      [ .invokeCallback ev.arguments,
        .sendItemCreate "function_call_output" ev.callId (f ev.arguments),
        .sendResponseCreate ] := by
  simp [handle_function_call, h]

/-- Witness for C2 at the concrete event of the spec example: member id
MB123456 and date of birth 1985-03-15. -/
theorem C2_witness :
    ({ callId := "call_abc123", name := "check_eligibility",
       arguments := Json.obj [("member_id", Json.str "MB123456"),
         ("date_of_birth", Json.str "1985-03-15")] } : FunctionCallEvent).name =
        "check_eligibility" ∧
    handle_function_call (some fun _ => Json.obj [("success", Json.bool true)])
      { callId := "call_abc123", name := "check_eligibility",
        arguments := Json.obj [("member_id", Json.str "MB123456"),
          ("date_of_birth", Json.str "1985-03-15")] } =
      [ .invokeCallback (Json.obj [("member_id", Json.str "MB123456"),
          ("date_of_birth", Json.str "1985-03-15")]),
        .sendItemCreate "function_call_output" "call_abc123"
          (Json.obj [("success", Json.bool true)]),
        .sendResponseCreate ] :=
  ⟨rfl, C2_function_call_protocol _ _ rfl⟩

/-- C6 counterexample: handling a done event whose function name is
lookup_claims (not the registered check_eligibility) produces an empty
action trace: in particular no structured error result is sent back to the
model, refuting the claim that one is produced. -/
theorem C6_counterexample :
    handle_function_call (some fun _ => Json.obj [("success", Json.bool true)])
      { callId := "call_1", name := "lookup_claims", arguments := Json.obj [] } = [] := rfl

/-- C6 amended: for every function-call-arguments-done event whose function
name is not the registered check_eligibility, handling the event does not
raise, but it also produces nothing: no callback invocation and no message
to the model (so no structured error result either) — the event is silently
ignored. -/
theorem C6_amended_silently_ignored (cb : Option (Json → Json)) (ev : FunctionCallEvent)
    (h : ev.name ≠ "check_eligibility") :
    handle_function_call cb ev = [] := by
  simp [handle_function_call, h]

/-- Witness for the amended C6 at a concrete event named transfer_call. -/
theorem C6_witness :
    ({ callId := "call_2", name := "transfer_call",
       arguments := Json.obj [] } : FunctionCallEvent).name ≠ "check_eligibility" ∧
    handle_function_call (some fun _ => Json.null)
      { callId := "call_2", name := "transfer_call", arguments := Json.obj [] } = [] :=
  ⟨by decide, C6_amended_silently_ignored _ _ (by decide)⟩

/-- C7 counterexample: for the concrete engine response with status success,
the payload returned to the model adapter is not that response: the bridge
returns a wrapper object with success, summary and full_result fields
instead of the response itself. -/
theorem C7_counterexample :
    handle_eligibility_check (.ok (Json.obj [("status", Json.str "success")])) ≠
      Json.obj [("status", Json.str "success")] := by
  intro h
  have he : handle_eligibility_check (.ok (Json.obj [("status", Json.str "success")])) =
      Json.obj [("success", Json.bool true),
        ("summary", Json.str "I was able to check the eligibility, but received an unclear response."),
        ("full_result", Json.obj [("status", Json.str "success")])] := rfl
  rw [he] at h
  simp at h

/-- C7 amended: for every success-status engine response whose summarization
succeeds, the bridge returns a restructured wrapper carrying a derived
summary; the engine response itself is preserved verbatim only under the
full_result field, and the returned payload is never the engine response
itself. -/
theorem C7_amended_wrapped (R summary : Json)
    (hst : R.get? "status" = some (Json.str "success"))
    (hsum : summarizeResult R = .ok summary) :
    handle_eligibility_check (.ok R) =
      Json.obj [("success", Json.bool true), ("summary", summary), ("full_result", R)] ∧
    (handle_eligibility_check (.ok R)).get? "full_result" = some R ∧
    handle_eligibility_check (.ok R) ≠ R := by
  rcases R with _ | b | n | s | es | fs
  case null => simp [Json.get?] at hst
  case bool => simp [Json.get?] at hst
  case num => simp [Json.get?] at hst
  case str => simp [Json.get?] at hst
  case arr => simp [Json.get?] at hst
  case obj =>
    have hl : lookupField fs "status" = some (Json.str "success") := by
      simpa [Json.get?] using hst
    have heq : handle_eligibility_check (.ok (Json.obj fs)) =
        Json.obj [("success", Json.bool true), ("summary", summary),
          ("full_result", Json.obj fs)] := by
      simp [handle_eligibility_check, jsonGet?, hl, hsum]
    refine ⟨heq, ?_, ?_⟩
    · rw [heq]; simp [Json.get?, lookupField]
    · rw [heq]
      exact json_obj_ne_field _ "full_result" _ (by simp)

/-- Witness for the amended C7 at the concrete success response. -/
theorem C7_witness :
    (Json.obj [("status", Json.str "success")]).get? "status" = some (Json.str "success") ∧
    summarizeResult (Json.obj [("status", Json.str "success")]) =
      .ok (Json.str "I was able to check the eligibility, but received an unclear response.") ∧
    (handle_eligibility_check (.ok (Json.obj [("status", Json.str "success")])) =
      Json.obj [("success", Json.bool true),
        ("summary", Json.str "I was able to check the eligibility, but received an unclear response."),
        ("full_result", Json.obj [("status", Json.str "success")])] ∧
     (handle_eligibility_check (.ok (Json.obj [("status", Json.str "success")]))).get? "full_result" =
       some (Json.obj [("status", Json.str "success")]) ∧
     handle_eligibility_check (.ok (Json.obj [("status", Json.str "success")])) ≠
       Json.obj [("status", Json.str "success")]) :=
  ⟨rfl, rfl, C7_amended_wrapped _ _ rfl rfl⟩

/-- C8: For every decision-engine invocation that fails — the engine raises,
or returns a response whose status is not success — the mediation returns a
structured failure payload with success false and an error field, and it
does not raise (the embedded function is total). -/
theorem C8_engine_failure_structured (eng : EngineOutcome) (h : engineFailed eng) :
    ∃ msg, handle_eligibility_check eng =
      Json.obj [("success", Json.bool false), ("error", msg)] := by
  cases eng with
  | exn e => exact ⟨.str e, rfl⟩
  | ok R =>
    rcases R with _ | b | n | s | es | fs
    case null => exact ⟨_, rfl⟩
    case bool => exact ⟨_, rfl⟩
    case num => exact ⟨_, rfl⟩
    case str => exact ⟨_, rfl⟩
    case arr => exact ⟨_, rfl⟩
    case obj =>
      simp only [handle_eligibility_check, jsonGet?]
      split
      · next heq => exact absurd heq h
      · next => exact ⟨_, rfl⟩

/-- Witness for C8 at a concrete error-status engine response. -/
theorem C8_witness :
    engineFailed (.ok (Json.obj [("status", Json.str "error"),
      ("message", Json.str "Member not found")])) ∧
    ∃ msg, handle_eligibility_check (.ok (Json.obj [("status", Json.str "error"),
      ("message", Json.str "Member not found")])) =
      Json.obj [("success", Json.bool false), ("error", msg)] :=
  ⟨by simp [engineFailed, Json.get?, lookupField],
   C8_engine_failure_structured _ (by simp [engineFailed, Json.get?, lookupField])⟩

/-- C4 counterexample: in TwilioStreamHandler.handle_message — one of the two
telephony event-processing loops in the repository — a media event arriving
in the initial state, before any start event, is forwarded to the model
adapter as one audio frame, not zero as the claim requires. -/
theorem C4_counterexample :
    (handle_message { streamSid := none, callSid := none }
        (.media [(255 : Byte)])).2.1 = [ulaw2linCore [(255 : Byte)]] ∧
    [ulaw2linCore [(255 : Byte)]].length = 1 :=
  ⟨rfl, rfl⟩

/-- C4 amended: in the voice_stream telephony event loop of
app_voice_working.py the claim holds: any event sequence containing no start
event forwards zero audio frames to the model adapter, and a start event
followed by one media event forwards exactly one frame.  (The claim fails
for the TwilioStreamHandler loop, which forwards media regardless of start;
see the counterexample.) -/
theorem C4_amended_gated (cs ss : String) (p : List Byte)
    (evs : List TwilioEvent) (h : ∀ c s, TwilioEvent.start c s ∉ evs) :
    voiceStreamRun none evs = [] ∧
    voiceStreamRun none [.start cs ss, .media p] = [ulaw2linCore p] := by
  constructor
  · induction evs with
    | nil => rfl
    | cons e rest ih =>
      cases e with
      | connected =>
        rw [voiceStreamRun]
        exact ih (fun c s hm => h c s (List.mem_cons_of_mem _ hm))
      | start c s => exact absurd (List.mem_cons_self _ _) (h c s)
      | media q =>
        rw [voiceStreamRun]
        exact ih (fun c s hm => h c s (List.mem_cons_of_mem _ hm))
      | stop => rfl
  · rfl

/-- Witness for the amended C4: a connected and a media event with no start
forward nothing, and the start-then-media sequence with stream id S1
forwards exactly one frame. -/
theorem C4_witness :
    (∀ c s, TwilioEvent.start c s ∉
      [TwilioEvent.connected, TwilioEvent.media [(10 : Byte), 20]]) ∧
    (voiceStreamRun none [TwilioEvent.connected, TwilioEvent.media [(10 : Byte), 20]] = [] ∧
     voiceStreamRun none [TwilioEvent.start "CA1" "S1",
       TwilioEvent.media [(10 : Byte), 20]] = [ulaw2linCore [(10 : Byte), 20]]) :=
  ⟨by intro c s; simp, C4_amended_gated "CA1" "S1" _ _ (by intro c s; simp)⟩

end OSHPOC
